import Mathlib

/-
Verification of the obstacle-aware link router of satisfactory-planner.

The router lives in src/Link.js (the A*-based version of the class).  The
definitions below are a shallow embedding of that code:

  * planning coordinates are rationals (JS numbers),
  * the planning grid is a total function from (row, column) indices to the
    integer traversal cost, with 0 the blocked sentinel, exactly as the
    rows-by-cols array of 1/0/3/6/14/55 values built by _computeAStarPathAsync,
  * grid construction (markRect, corridor carving, the congestion pass),
    the per-link route cache (getLatLngs, _schedulePathRecompute), the
    post-processing pipeline (_simplifyOrthogonal, _pruneShortSegments,
    _stitchEndpoints) and the findPath callback are each translated
    function-for-function from the source.

The EasyStar solver is a third-party dependency whose source is not part of
the repository; it is modelled from the design document (a weighted
shortest-path search on the 4-connected grid with a stable deterministic
tie-break, run incrementally in bounded iteration batches).
-/

namespace LinkRouter

/-- A planning-coordinate point (JS number pair). -/
abbrev Pt : Type := ℚ × ℚ

/-- A grid cell index pair (x, y), as in the cell objects EasyStar returns. -/
abbrev Cell : Type := Int × Int

/-- The planning grid: grid cy cx is the cost stored at row cy, column cx
(JS grid[cy][cx]).  0 is the blocked sentinel. -/
abbrev Grid : Type := Int → Int → Int

/-- The local planning region parameters computed by _computeAStarPathAsync:
bounds of the local bounding box and the cell edge length. -/
structure GridParams where
  minX : ℚ
  minY : ℚ
  maxX : ℚ
  maxY : ℚ
  cell : ℚ

/-- Number of grid columns: cols = Math.max(2, Math.ceil((maxX - minX) / cell) + 1). -/
def cols (pa : GridParams) : Int :=
  max 2 (Int.ceil ((pa.maxX - pa.minX) / pa.cell) + 1)

/-- Number of grid rows: rows = Math.max(2, Math.ceil((maxY - minY) / cell) + 1). -/
def rows (pa : GridParams) : Int :=
  max 2 (Int.ceil ((pa.maxY - pa.minY) / pa.cell) + 1)

/-- toCellX = (x) => Math.min(cols - 1, Math.max(0, Math.floor((x - minX) / cell))). -/
def toCellX (pa : GridParams) (x : ℚ) : Int :=
  min (cols pa - 1) (max 0 (Int.floor ((x - pa.minX) / pa.cell)))

/-- toCellY = (y) => Math.min(rows - 1, Math.max(0, Math.floor((y - minY) / cell))). -/
def toCellY (pa : GridParams) (y : ℚ) : Int :=
  min (rows pa - 1) (max 0 (Int.floor ((y - pa.minY) / pa.cell)))

/-- toPoint = (cx, cy) => [minX + cx * cell + cell / 2, minY + cy * cell + cell / 2]:
the planning-coordinate center of a cell. -/
def toPoint (pa : GridParams) (c : Cell) : Pt :=
  (pa.minX + (c.1 : ℚ) * pa.cell + pa.cell / 2,
   pa.minY + (c.2 : ℚ) * pa.cell + pa.cell / 2)

/-- Pointwise functional update of one grid cell (grid[cy][cx] = v). -/
def setCell (g : Grid) (cy cx : Int) (v : Int) : Grid :=
  fun y x => if y = cy ∧ x = cx then v else g y x

/-- The all-walkable initial grid (every cell set to the base cost 1). -/
def baseGrid : Grid := fun _ _ => 1

/-- markRect from _computeAStarPathAsync: writes the rectangle of cells between
the clamped corner cells.  With blockInside the cell becomes the blocked
sentinel 0; otherwise the cost is only ever raised: Math.max(grid[cy][cx], value). -/
def markRect (pa : GridParams) (g : Grid) (x1 y1 x2 y2 : ℚ) (value : Int)
    (blockInside : Bool) : Grid :=
  fun cy cx =>
    if toCellY pa (min y1 y2) ≤ cy ∧ cy ≤ toCellY pa (max y1 y2) ∧
       toCellX pa (min x1 x2) ≤ cx ∧ cx ≤ toCellX pa (max x1 x2) then
      if blockInside then 0 else max (g cy cx) value
    else g cy cx

/-- An axis-aligned node rectangle (node.x, node.y, node.width, node.height). -/
structure NodeRect where
  x : ℚ
  y : ℚ
  w : ℚ
  h : ℚ

/-- One iteration of the node obstacle loop: skip nodes entirely outside the
local bounding box, otherwise mark the halo ring at cost 55 and then block the
interior.  haloCells = 1, so halo = cell. -/
def rasterizeNode (pa : GridParams) (g : Grid) (n : NodeRect) : Grid :=
  let nx1 := n.x
  let ny1 := n.y
  let nx2 := n.x + n.w
  let ny2 := n.y + n.h
  if nx2 < pa.minX ∨ nx1 > pa.maxX ∨ ny2 < pa.minY ∨ ny1 > pa.maxY then g
  else
    let halo := pa.cell
    markRect pa
      (markRect pa g (nx1 - halo) (ny1 - halo) (nx2 + halo) (ny2 + halo) 55 false)
      nx1 ny1 nx2 ny2 0 true

/-- forceSetCell: hard-set a cell (even if previously blocked), no-op out of bounds. -/
def forceSetCell (pa : GridParams) (g : Grid) (cy cx : Int) (v : Int) : Grid :=
  if cy < 0 ∨ cy ≥ rows pa ∨ cx < 0 ∨ cx ≥ cols pa then g
  else setCell g cy cx v

/-- raiseCellCost: raise a non-blocked in-bounds cell to Math.max(current, value). -/
def raiseCellCost (pa : GridParams) (g : Grid) (cy cx : Int) (v : Int) : Grid :=
  if cy < 0 ∨ cy ≥ rows pa ∨ cx < 0 ∨ cx ≥ cols pa then g
  else if g cy cx ≠ 0 then setCell g cy cx (max (g cy cx) v) else g

/-- The corridor loop body: corridorLenCells iterations of
forceSetCell(cy, cx, 3) followed by a step in the chosen direction. -/
def carveLoop (pa : GridParams) : Nat → Grid → Int → Int → Int → Int → Grid
  | 0, g, _, _, _, _ => g
  | Nat.succ k, g, cx, cy, dx, dy =>
      carveLoop pa k (forceSetCell pa g cy cx 3) (cx + dx) (cy + dy) dx dy

/-- carveCorridor from _computeAStarPathAsync: pick the axis of least distance
from the pin to the owning node's edge (tested in the order left, right, top,
bottom), carve corridorLenCells = 2 + haloCells = 3 cells of low cost 3
outward, then raise the very first cell's cost to 6. -/
def carveCorridor (pa : GridParams) (g : Grid) (px py : ℚ) (n : NodeRect)
    (startCx startCy : Int) : Grid :=
  let nx1 := n.x
  let ny1 := n.y
  let nx2 := n.x + n.w
  let ny2 := n.y + n.h
  let dLeft := |px - nx1|
  let dRight := |nx2 - px|
  let dTop := |py - ny1|
  let dBottom := |ny2 - py|
  let minD := min (min dLeft dRight) (min dTop dBottom)
  let dir : Int × Int :=
    if minD = dLeft then (-1, 0)
    else if minD = dRight then (1, 0)
    else if minD = dTop then (0, -1)
    else (0, 1)
  let g1 := carveLoop pa 3 g startCx startCy dir.1 dir.2
  raiseCellCost pa g1 startCy startCx 6

/-- One bounds-checked ring write of the congestion pass: a non-blocked
in-bounds neighbour cell is raised to Math.max(current, 14). -/
def raiseRingCell (pa : GridParams) (g : Grid) (ny nx : Int) : Grid :=
  if ny < 0 ∨ ny ≥ rows pa ∨ nx < 0 ∨ nx ≥ cols pa then g
  else if g ny nx ≠ 0 then setCell g ny nx (max (g ny nx) 14) else g

/-- Processing of one sampled point (tx, ty) of another link's polyline in the
congestion pass: the core cell is raised to at least 6 when not blocked, then
the four neighbours [cy-1,cx], [cy+1,cx], [cy,cx-1], [cy,cx+1] are raised to at
least 14 when in bounds and not blocked. -/
def congestionSample (pa : GridParams) (g : Grid) (tx ty : ℚ) : Grid :=
  let cx := toCellX pa tx
  let cy := toCellY pa ty
  let g1 := if g cy cx ≠ 0 then setCell g cy cx (max (g cy cx) 6) else g
  raiseRingCell pa
    (raiseRingCell pa
      (raiseRingCell pa
        (raiseRingCell pa g1 (cy - 1) cx)
        (cy + 1) cx)
      cy (cx - 1))
    cy (cx + 1)

/-- The whole congestion pass over the list of sampled points taken along the
other links' polylines (the segment-sampling positions are irrelevant to the
grid-write properties, so the sample list is a parameter). -/
def congestionPass (pa : GridParams) (g : Grid) (samples : List Pt) : Grid :=
  samples.foldl (fun g' s => congestionSample pa g' s.1 s.2) g

/-- The full grid construction pipeline of _computeAStarPathAsync in source
order: initialization to the walkable baseline, the obstacle/halo pass over
all nodes, the unconditional reset of the start and end cells to 1, the two
corridor carvings, and the congestion pass. -/
def buildGrid (pa : GridParams) (nodes : List NodeRect) (startNode endNode : NodeRect)
    (sx sy ex ey : ℚ) (samples : List Pt) : Grid :=
  let g0 := nodes.foldl (rasterizeNode pa) baseGrid
  let startCX := toCellX pa sx
  let startCY := toCellY pa sy
  let endCX := toCellX pa ex
  let endCY := toCellY pa ey
  let g1 := setCell g0 startCY startCX 1
  let g2 := setCell g1 endCY endCX 1
  let g3 := carveCorridor pa g2 sx sy startNode startCX startCY
  let g4 := carveCorridor pa g3 ex ey endNode endCX endCY
  congestionPass pa g4 samples

/-! Path post-processing (_simplifyOrthogonal, _pruneShortSegments,
_stitchEndpoints) and the findPath callback. -/

/-- Math.sign on a rational. -/
def qsign (q : ℚ) : Int :=
  if q < 0 then -1 else if q = 0 then 0 else 1

/-- The unit-direction pair (Math.sign(x1 - x0), Math.sign(y1 - y0)) the
simplifier compares between consecutive segments. -/
def dsign (a b : Pt) : Int × Int :=
  (qsign (b.1 - a.1), qsign (b.2 - a.2))

/-- The loop of _simplifyOrthogonal.  last is the current final entry of the
JS res array, prevD the (prevDx, prevDy) pair (none encodes the initial null
values).  When the direction from last to the next input point equals prevD
the JS code overwrites res's final entry (so last is dropped); otherwise the
next point is pushed (so last is frozen into the output). -/
def simplifyGo : Pt → Option (Int × Int) → List Pt → List Pt
  | last, _, [] => [last]
  | last, prevD, p :: rest =>
      let d := dsign last p
      if some d = prevD then simplifyGo p prevD rest
      else last :: simplifyGo p (some d) rest

/-- _simplifyOrthogonal: lists of at most two points are returned unchanged;
otherwise the res array is seeded with the first point and the loop runs over
the remaining points with prevDx = prevDy = null. -/
def simplifyOrthogonal (pts : List Pt) : List Pt :=
  if pts.length ≤ 2 then pts
  else
    match pts with
    | [] => []
    | p :: rest => simplifyGo p none rest

/-- Squared Euclidean distance.  The JS code compares Math.hypot(dx, dy) <
minLen with minLen = Math.max(1, 0.4 * cell) > 0; comparing squares is the
same comparison. -/
def distSq (a b : Pt) : ℚ :=
  (a.1 - b.1) ^ 2 + (a.2 - b.2) ^ 2

/-- The loop of _pruneShortSegments: prev is the current final output entry;
exact duplicates of prev are dropped, and a point collinear (on either axis)
with prev and the next input point is dropped when closer to prev than minLen. -/
def pruneGo (minLen : ℚ) : Pt → List Pt → List Pt
  | _prev, [] => []
  | _prev, [lastP] => [lastP]
  | prev, curr :: next :: rest =>
      if curr.1 = prev.1 ∧ curr.2 = prev.2 then pruneGo minLen prev (next :: rest)
      else if ((prev.1 = curr.1 ∧ curr.1 = next.1) ∨ (prev.2 = curr.2 ∧ curr.2 = next.2))
              ∧ distSq prev curr < minLen ^ 2 then
        pruneGo minLen prev (next :: rest)
      else curr :: pruneGo minLen curr (next :: rest)

/-- _pruneShortSegments: lists of fewer than three points are returned
unchanged; otherwise the first point is kept, interior points are filtered by
the loop, and the final point is always appended (by the loop's
one-element-left case). -/
def pruneShortSegments (pts : List Pt) (minLen : ℚ) : List Pt :=
  match pts with
  | [] => []
  | [a] => [a]
  | [a, b] => [a, b]
  | a :: rest => a :: pruneGo minLen a rest

/-- stitchAxis from _stitchEndpoints: the short orthogonal joining segment
between a and b, preferring the axis of greater displacement. -/
def stitchAxis (cell : ℚ) (a b : Pt) : List Pt :=
  let dx := b.1 - a.1
  let dy := b.2 - a.2
  if dx = 0 ∨ dy = 0 then []
  else if |dy| ≤ |dx| then
    [(a.1 + (qsign dx : ℚ) * min |dx| (cell / 2), a.2), (b.1, a.2)]
  else
    [(a.1, a.2 + (qsign dy : ℚ) * min |dy| (cell / 2)), (a.1, b.2)]

/-- _stitchEndpoints: present in the source but its call site in the findPath
callback is commented out.  Starts at the exact start pin, inserts a joining
segment when the first path point shares no coordinate with the start, copies
the path, joins to the exact end pin symmetrically, then re-simplifies. -/
def stitchEndpoints (start : Pt) (points : List Pt) (endP : Pt) (cell : ℚ) : List Pt :=
  let path := if points = [] then [endP] else points
  let head := path.headI
  let front :=
    if head.1 = start.1 ∨ head.2 = start.2 then [start]
    else start :: stitchAxis cell start head
  let last := path.getLastI
  let back :=
    if endP.1 = last.1 ∨ endP.2 = last.2 then [endP]
    else stitchAxis cell last endP ++ [endP]
  simplifyOrthogonal (pruneShortSegments (front ++ path ++ back) (max 1 (cell / 4)))

/-- The planning-coordinate polyline the findPath callback commits on success:
cell centers, orthogonally simplified, short segments pruned.  The
_stitchEndpoints call is commented out in the source (const stitched =
simplified), so the committed polyline is the pruned cell-center path. -/
def committedPlanningPath (pa : GridParams) (rawPath : List Cell) : List Pt :=
  let pts := rawPath.map (toPoint pa)
  let simplified := simplifyOrthogonal pts
  let pruned := pruneShortSegments simplified (max 1 (2 / 5 * pa.cell))
  pruned

/-! The per-link route cache: getLatLngs and the solver callback. -/

/-- One rounded coordinate of the endpoints key: toFixed(5) viewed as an
integer count of 1e-5 units. -/
def fix5 (q : ℚ) : Int := Int.floor (q * 100000 + 1 / 2)

/-- The coarse endpoints signature: the template string of the four rounded
coordinates of the two pin positions. -/
def sigKey (a b : Pt) : Int × Int × Int × Int :=
  (fix5 a.1, fix5 a.2, fix5 b.1, fix5 b.2)

/-- The per-link mutable pathfinding state (fields of the Link object). -/
structure RouteState where
  pathLatLngs : Option (List Pt)
  lastKey : Option (Int × Int × Int × Int)
  recomputeScheduled : Bool
deriving DecidableEq

/-- Result of one getLatLngs call: the returned polyline, the link state after
the call, and whether _schedulePathRecompute was invoked during the call. -/
structure GetResult where
  output : List Pt
  state : RouteState
  invokedSchedule : Bool
deriving DecidableEq

/-- The fallback elbow of getLatLngs in screen-projected space:
[p1, (midX, p1.y), (midX, p2.y), p2] with midX = p1.x + (p2.x - p1.x) / 2. -/
def elbow (p1 p2 : Pt) : List Pt :=
  let midX := p1.1 + (p2.1 - p1.1) / 2
  [p1, (midX, p1.2), (midX, p2.2), p2]

/-- The tail of getLatLngs after the signature check: serve the committed path
when present and non-empty, otherwise project both pins, build the elbow and
unproject it. -/
def serveOrFallback (proj unproj : Pt → Pt) (s1 : RouteState) (a b : Pt)
    (invoked : Bool) : GetResult :=
  match s1.pathLatLngs with
  | some p => if p ≠ [] then ⟨p, s1, invoked⟩
              else ⟨(elbow (proj a) (proj b)).map unproj, s1, invoked⟩
  | none => ⟨(elbow (proj a) (proj b)).map unproj, s1, invoked⟩

/-- getLatLngs: missing pins yield the empty polyline; otherwise the current
endpoints key is compared against the stored one — on mismatch the key is
stored, the committed path invalidated and _schedulePathRecompute invoked
(leaving the scheduled flag set) — and then the committed path or the fallback
elbow is served. -/
def getLatLngs (proj unproj : Pt → Pt) (pins : Option (Pt × Pt))
    (s : RouteState) : GetResult :=
  match pins with
  | none => ⟨[], s, false⟩
  | some (a, b) =>
      let key := sigKey a b
      if s.lastKey = some key then
        serveOrFallback proj unproj s a b false
      else
        serveOrFallback proj unproj
          ⟨none, some key, true⟩ a b true

/-- The findPath callback of _computeAStarPathAsync.  On failure (null or
empty path) the committed path is cleared and the polyline re-rendered through
getLatLngs; on success the raw cell path is post-processed, unprojected with
the planner's coordinate adapter and committed.  Returns the state after the
callback and the polyline handed to the renderer. -/
def pathCallback (pa : GridParams) (mapProj mapUnproj plannerUnproj : Pt → Pt)
    (pins : Option (Pt × Pt)) (s : RouteState) (path : Option (List Cell)) :
    RouteState × List Pt :=
  let onFail :=
    let r := getLatLngs mapProj mapUnproj pins ⟨none, s.lastKey, s.recomputeScheduled⟩
    (r.state, r.output)
  match path with
  | none => onFail
  | some [] => onFail
  | some ps =>
      let latlngs := (committedPlanningPath pa ps).map plannerUnproj
      (⟨some latlngs, s.lastKey, s.recomputeScheduled⟩, latlngs)

/-! The congestion-pass link filter. -/

/-- The fields of another Link object the congestion pass can observe: its
identity, whether it has a Leaflet polyline, whether its committed path is
non-empty (as opposed to rendering the fallback elbow), and whether one of its
endpoint nodes is currently mid-drag. -/
structure LinkRec where
  lid : Nat
  hasPolyline : Bool
  committedNonEmpty : Bool
  midDrag : Bool
deriving DecidableEq

/-- The filter the source congestion pass applies:
getLinks().filter(l => l !== this && l.polyline). -/
def congestionOtherLinks (selfId : Nat) (links : List LinkRec) : List LinkRec :=
  links.filter (fun l => (l.lid != selfId) && l.hasPolyline)

/-- Modelled from the spec: the route set the claim says the congestion pass
iterates over — every other currently-committed route, excluding the link
being computed and excluding any route whose endpoints are mid-drag.  Stated
for refinement comparison with congestionOtherLinks. -/
def claimedCongestionLinks (selfId : Nat) (links : List LinkRec) : List LinkRec :=
  links.filter (fun l => (l.lid != selfId) && l.committedNonEmpty && !l.midDrag)

/-! The path solver.

Modelled from the spec: the solver itself (EasyStar.js) is a third-party
dependency whose source is not part of this repository; only its
configuration and invocation in _computeAStarPathAsync are.  Following
section 4.2 of the design document it is a weighted shortest-path search
over the 4-connected grid (the source leaves diagonals at their disabled
default), expanding no blocked cell, with ties broken deterministically by a
stable ordering, executed incrementally in bounded batches of iterations
(setIterationsPerCalculation / the tick loop). -/

/-- A solver cell: non-negative (x, y) grid indices. -/
abbrev SCell : Type := Nat × Nat

/-- Solver parameters: the grid as read by setGrid, the acceptable (walkable)
tile values of setAcceptableTiles, the per-tile entry cost of setTileCost,
and the start and goal cells of findPath. -/
structure SolverParams where
  grid : List (List Int)
  acceptable : List Int
  costOf : Int → Nat
  start : SCell
  goal : SCell

/-- The tile value stored at a cell, if the cell is inside the grid. -/
def tileAt (grid : List (List Int)) (c : SCell) : Option Int :=
  (grid.get? c.2).bind fun row => row.get? c.1

/-- A cell is walkable when its tile value is among the acceptable tiles. -/
def walkable (p : SolverParams) (c : SCell) : Bool :=
  match tileAt p.grid c with
  | some v => p.acceptable.contains v
  | none => false

/-- Cost of entering a cell: the declared weight of its tile value. -/
def cellCost (p : SolverParams) (c : SCell) : Nat :=
  match tileAt p.grid c with
  | some v => p.costOf v
  | none => 0

/-- The 4-neighbourhood of a cell, in a fixed enumeration order. -/
def neighbors4 (c : SCell) : List SCell :=
  (if 0 < c.2 then [(c.1, c.2 - 1)] else []) ++ [(c.1, c.2 + 1)] ++
  (if 0 < c.1 then [(c.1 - 1, c.2)] else []) ++ [(c.1 + 1, c.2)]

/-- The stable tie-break ordering on frontier entries: least accumulated
cost first, ties resolved by row index then column index. -/
def frontPrefer (a b : SCell × Nat) : Bool :=
  (a.2 < b.2) || ((a.2 == b.2) && ((a.1.2 < b.1.2) ||
    ((a.1.2 == b.1.2) && (a.1.1 < b.1.1))))

/-- Deterministically select the preferred frontier entry. -/
def pickBest (front : List (SCell × Nat)) : Option (SCell × Nat) :=
  match front with
  | [] => none
  | e :: rest => some (rest.foldl (fun best f => if frontPrefer f best then f else best) e)

/-- The resumable solver state: the open frontier, the parent map recording
the cell each discovered cell was first reached from, the closed set, and the
delivered result once the search has finished (none inside the option encodes
the failure callback value). -/
structure SolveState where
  frontier : List (SCell × Nat)
  parents : List (SCell × SCell)
  closed : List SCell
  result : Option (Option (List SCell))
deriving DecidableEq

/-- First-match lookup in the parent map. -/
def lookupParent (ps : List (SCell × SCell)) (c : SCell) : Option SCell :=
  (ps.find? (fun e => e.1 == c)).map (fun e => e.2)

/-- Fuel-bounded reconstruction of the cell path by walking the parent map
back from the goal. -/
def reconstruct (p : SolverParams) (parents : List (SCell × SCell)) :
    Nat → SCell → List SCell → List SCell
  | 0, c, acc => c :: acc
  | Nat.succ fuel, c, acc =>
      if c = p.start then c :: acc
      else
        match lookupParent parents c with
        | some q => reconstruct p parents fuel q (c :: acc)
        | none => c :: acc

/-- Discovery of one neighbour cell: a walkable cell not yet closed and not
yet discovered is added to the frontier with the accumulated cost and
recorded in the parent map. -/
def expandOne (p : SolverParams) (c : SCell) (d : Nat) (s : SolveState)
    (n : SCell) : SolveState :=
  if walkable p n && !(s.closed.contains n) &&
     (lookupParent s.parents n).isNone && !(n == p.start) then
    { s with frontier := (n, d + cellCost p n) :: s.frontier,
             parents := (n, c) :: s.parents }
  else s

/-- One search iteration: with a delivered result the state is final;
an exhausted frontier delivers failure; otherwise the preferred frontier
entry is removed and — unless already closed — either delivers the
reconstructed path (goal reached) or is closed and its neighbours expanded. -/
def solveStep (p : SolverParams) (s : SolveState) : SolveState :=
  if s.result.isSome then s
  else
    match pickBest s.frontier with
    | none => { s with result := some none }
    | some best =>
        let rest := s.frontier.erase best
        let c := best.1
        if s.closed.contains c then { s with frontier := rest }
        else if c = p.goal then
          let path := reconstruct p s.parents (s.parents.length + 1) c []
          { s with result := some (some path) }
        else
          let s1 : SolveState :=
            { s with frontier := rest, closed := c :: s.closed }
          (neighbors4 c).foldl (expandOne p c best.2) s1

/-- The initial state of findPath: an immediate failure result when the start
or the goal cell is not walkable, otherwise the start cell alone on the
frontier at cost zero. -/
def initState (p : SolverParams) : SolveState :=
  if walkable p p.start && walkable p p.goal then
    ⟨[(p.start, 0)], [], [], none⟩
  else ⟨[], [], [], some none⟩

/-- One calculate() call: a bounded batch of k search iterations. -/
def calculate (p : SolverParams) (k : Nat) (s : SolveState) : SolveState :=
  (solveStep p)^[k] s

/-- The tick loop: run calculate() batches (yielding between them) until a
result has been delivered, for at most b scheduling turns. -/
def solveRun (p : SolverParams) (k : Nat) : Nat → SolveState → SolveState
  | 0, s => s
  | Nat.succ b, s => if s.result.isSome then s else solveRun p k b (calculate p k s)

/-- Total cost of a returned path: the sum of the entered cells' weights. -/
def pathCost (p : SolverParams) (path : List SCell) : Nat :=
  path.foldl (fun acc c => acc + cellCost p c) 0

/-- The tile-cost table the source installs with setTileCost (default cost 1). -/
def linkTileCost : Int → Nat := fun v =>
  if v = 3 then 3 else if v = 5 then 5 else if v = 6 then 6
  else if v = 10 then 20 else if v = 12 then 12 else if v = 14 then 14
  else if v = 25 then 30 else if v = 55 then 55 else 1

/-- The acceptable-tiles list the source installs with setAcceptableTiles. -/
def linkAcceptableTiles : List Int := [1, 3, 5, 6, 10, 12, 14, 25, 55]

/-! Auxiliary predicates and concrete instances used by the theorems below. -/

/-- A grid transformation writes only inside the allocated rows-by-cols array:
any cell whose value it changes has in-range row and column indices. -/
def WritesInBounds (pa : GridParams) (f : Grid → Grid) : Prop :=
  ∀ g y x, f g y x ≠ g y x →
    0 ≤ y ∧ y < rows pa ∧ 0 ≤ x ∧ x < cols pa

/-- The invariant maintained by the simplifier loop: along the list, each
point differs from its predecessor in a direction other than the incoming
one, starting from prevD. -/
def simpOk : Option (Int × Int) → List Pt → Prop
  | _, [] => True
  | _, [_] => True
  | prevD, a :: b :: rest =>
      some (dsign a b) ≠ prevD ∧ simpOk (some (dsign a b)) (b :: rest)

/-- A concrete local planning region: origin 0, 600 by 600, cell 150,
hence a 5 by 5 cell grid. -/
def pa0 : GridParams := ⟨0, 0, 600, 600, 150⟩

/-- A concrete node covering planning rectangle [0,300] x [0,300]. -/
def nodeA : NodeRect := ⟨0, 0, 300, 300⟩

/-- A concrete node covering [450,750] x [0,300]; its halo ring reaches back
over the interior cells of nodeA. -/
def nodeB : NodeRect := ⟨450, 0, 300, 300⟩

/-- A concrete link record whose endpoints are mid-drag and which renders a
polyline with a non-empty committed path. -/
def dragLink : LinkRec := ⟨1, true, true, true⟩

/-- A concrete solver instance: an all-walkable 2 by 2 grid with the source's
tile configuration, start (0,0), goal (1,1). -/
def solver0 : SolverParams :=
  ⟨[[1, 1], [1, 1]], linkAcceptableTiles, linkTileCost, (0, 0), (1, 1)⟩

/-- A concrete route state holding a committed single-segment path whose
stored key matches the pins (0,0)-(3,4). -/
def cachedState : RouteState :=
  ⟨some [(1, 2)], some (sigKey (0, 0) (3, 4)), false⟩

/-- A concrete route state with no stored endpoints key. -/
def freshState : RouteState := ⟨some [(1, 2)], none, false⟩

/-! Theorems.  Support lemmas first, then one theorem per claim. -/

lemma cols_two_le (pa : GridParams) : 2 ≤ cols pa := le_max_left _ _

lemma rows_two_le (pa : GridParams) : 2 ≤ rows pa := le_max_left _ _

lemma toCellX_lb (pa : GridParams) (x : ℚ) : 0 ≤ toCellX pa x := by
  unfold toCellX
  have h1 : (0 : Int) ≤ cols pa - 1 := by have := cols_two_le pa; omega
  exact le_min h1 (le_max_left 0 _)

lemma toCellX_ub (pa : GridParams) (x : ℚ) : toCellX pa x ≤ cols pa - 1 :=
  min_le_left _ _

lemma toCellY_lb (pa : GridParams) (y : ℚ) : 0 ≤ toCellY pa y := by
  unfold toCellY
  have h1 : (0 : Int) ≤ rows pa - 1 := by have := rows_two_le pa; omega
  exact le_min h1 (le_max_left 0 _)

lemma toCellY_ub (pa : GridParams) (y : ℚ) : toCellY pa y ≤ rows pa - 1 :=
  min_le_left _ _

lemma markRect_writes_in_bounds (pa : GridParams) (x1 y1 x2 y2 : ℚ) (v : Int)
    (b : Bool) : WritesInBounds pa (fun g => markRect pa g x1 y1 x2 y2 v b) := by
  intro g y x h
  unfold markRect at h
  by_cases hc : toCellY pa (min y1 y2) ≤ y ∧ y ≤ toCellY pa (max y1 y2) ∧
      toCellX pa (min x1 x2) ≤ x ∧ x ≤ toCellX pa (max x1 x2)
  · obtain ⟨h1, h2, h3, h4⟩ := hc
    have hy0 := toCellY_lb pa (min y1 y2)
    have hy1 := toCellY_ub pa (max y1 y2)
    have hx0 := toCellX_lb pa (min x1 x2)
    have hx1 := toCellX_ub pa (max x1 x2)
    omega
  · simp only [if_neg hc] at h
    exact absurd rfl h

lemma raiseRingCell_writes_in_bounds (pa : GridParams) (ny nx : Int) :
    WritesInBounds pa (fun g => raiseRingCell pa g ny nx) := by
  intro g y x h
  unfold raiseRingCell at h
  by_cases hb : ny < 0 ∨ ny ≥ rows pa ∨ nx < 0 ∨ nx ≥ cols pa
  · simp only [if_pos hb] at h; exact absurd rfl h
  · simp only [if_neg hb] at h
    by_cases hz : g ny nx ≠ 0
    · simp only [if_pos hz, setCell] at h
      by_cases he : y = ny ∧ x = nx
      · obtain ⟨hy, hx⟩ := he; subst hy; subst hx; omega
      · simp only [if_neg he] at h; exact absurd rfl h
    · simp only [if_neg hz] at h; exact absurd rfl h

lemma writes_in_bounds_comp (pa : GridParams) (f1 f2 : Grid → Grid)
    (h1 : WritesInBounds pa f1) (h2 : WritesInBounds pa f2) :
    WritesInBounds pa (fun g => f2 (f1 g)) := by
  intro g y x h
  simp only at h
  by_cases hmid : f1 g y x = g y x
  · exact h2 (f1 g) y x (by rw [hmid]; exact h)
  · exact h1 g y x hmid

lemma congestionSample_writes_in_bounds (pa : GridParams) (tx ty : ℚ) :
    WritesInBounds pa (fun g => congestionSample pa g tx ty) := by
  have hcore : WritesInBounds pa (fun g =>
      if g (toCellY pa ty) (toCellX pa tx) ≠ 0 then
        setCell g (toCellY pa ty) (toCellX pa tx)
          (max (g (toCellY pa ty) (toCellX pa tx)) 6)
      else g) := by
    intro g y x h
    by_cases hz : g (toCellY pa ty) (toCellX pa tx) ≠ 0
    · simp only [if_pos hz, setCell] at h
      by_cases he : y = toCellY pa ty ∧ x = toCellX pa tx
      · obtain ⟨hy, hx⟩ := he; subst hy; subst hx
        have := toCellY_lb pa ty
        have := toCellY_ub pa ty
        have := toCellX_lb pa tx
        have := toCellX_ub pa tx
        omega
      · simp only [if_neg he] at h; exact absurd rfl h
    · simp only [if_neg hz] at h; exact absurd rfl h
  have hstack := writes_in_bounds_comp pa _ _
    (writes_in_bounds_comp pa _ _
      (writes_in_bounds_comp pa _ _
        (writes_in_bounds_comp pa _ _ hcore
          (raiseRingCell_writes_in_bounds pa (toCellY pa ty - 1) (toCellX pa tx)))
        (raiseRingCell_writes_in_bounds pa (toCellY pa ty + 1) (toCellX pa tx)))
      (raiseRingCell_writes_in_bounds pa (toCellY pa ty) (toCellX pa tx - 1)))
    (raiseRingCell_writes_in_bounds pa (toCellY pa ty) (toCellX pa tx + 1))
  intro g y x h
  exact hstack g y x h

/-- Claim C10: the cell-index mappings toCellX and toCellY clamp every input
coordinate into the ranges [0, cols-1] and [0, rows-1], and consequently
every grid write performed by markRect and by the congestion pass lands
inside the allocated rows-by-cols array bounds. -/
theorem c10_clamped_indices_in_bounds (pa : GridParams) :
    (∀ x : ℚ, 0 ≤ toCellX pa x ∧ toCellX pa x ≤ cols pa - 1) ∧
    (∀ y : ℚ, 0 ≤ toCellY pa y ∧ toCellY pa y ≤ rows pa - 1) ∧
    (∀ (x1 y1 x2 y2 : ℚ) (v : Int) (b : Bool),
      WritesInBounds pa (fun g => markRect pa g x1 y1 x2 y2 v b)) ∧
    (∀ tx ty : ℚ, WritesInBounds pa (fun g => congestionSample pa g tx ty)) :=
  ⟨fun x => ⟨toCellX_lb pa x, toCellX_ub pa x⟩,
   fun y => ⟨toCellY_lb pa y, toCellY_ub pa y⟩,
   fun x1 y1 x2 y2 v b => markRect_writes_in_bounds pa x1 y1 x2 y2 v b,
   fun tx ty => congestionSample_writes_in_bounds pa tx ty⟩

/-- Witness for C10 at the concrete region pa0: the halo write that changes
cell (1, 2) is inside the 5 by 5 allocation. -/
theorem c10_clamped_indices_in_bounds_witness :
    0 ≤ (1 : Int) ∧ (1 : Int) < rows pa0 ∧ 0 ≤ (2 : Int) ∧ (2 : Int) < cols pa0 :=
  (c10_clamped_indices_in_bounds pa0).2.2.1 0 0 300 300 55 false baseGrid 1 2
    (by norm_num [markRect, toCellX, toCellY, cols, rows, pa0, baseGrid])

lemma markRect_mono (pa : GridParams) (g : Grid) (x1 y1 x2 y2 : ℚ) (v : Int)
    (cy cx : Int) : g cy cx ≤ markRect pa g x1 y1 x2 y2 v false cy cx := by
  unfold markRect
  split
  · exact le_max_left _ _
  · exact le_refl _

lemma markRect_idem (pa : GridParams) (g : Grid) (x1 y1 x2 y2 : ℚ) (v : Int)
    (cy cx : Int) :
    markRect pa (markRect pa g x1 y1 x2 y2 v false) x1 y1 x2 y2 v false cy cx =
      markRect pa g x1 y1 x2 y2 v false cy cx := by
  unfold markRect
  split
  · simp [max_assoc]
  · rfl

lemma setCell_apply (g : Grid) (cy cx v y x : Int) :
    setCell g cy cx v y x = if y = cy ∧ x = cx then v else g y x := rfl

lemma raiseRingCell_mono (pa : GridParams) (g : Grid) (ny nx y x : Int) :
    g y x ≤ raiseRingCell pa g ny nx y x := by
  unfold raiseRingCell
  split
  · exact le_refl _
  · split
    · rw [setCell_apply]
      split
      · rename_i hz he
        obtain ⟨hy, hx⟩ := he
        subst hy; subst hx
        exact le_max_left _ _
      · exact le_refl _
    · exact le_refl _

lemma raiseRingCell_zero (pa : GridParams) (g : Grid) (ny nx y x : Int)
    (h : g y x = 0) : raiseRingCell pa g ny nx y x = 0 := by
  unfold raiseRingCell
  split
  · exact h
  · split
    · rw [setCell_apply]
      split
      · rename_i hz he
        obtain ⟨hy, hx⟩ := he
        subst hy; subst hx
        exact absurd h hz
      · exact h
    · exact h

lemma congestionSample_mono (pa : GridParams) (g : Grid) (tx ty : ℚ)
    (y x : Int) : g y x ≤ congestionSample pa g tx ty y x := by
  unfold congestionSample
  have hcore : g y x ≤
      (if g (toCellY pa ty) (toCellX pa tx) ≠ 0 then
        setCell g (toCellY pa ty) (toCellX pa tx)
          (max (g (toCellY pa ty) (toCellX pa tx)) 6)
      else g) y x := by
    split
    · rw [setCell_apply]
      split
      · rename_i he
        obtain ⟨hy, hx⟩ := he
        subst hy; subst hx
        exact le_max_left _ _
      · exact le_refl _
    · exact le_refl _
  calc g y x ≤ _ := hcore
    _ ≤ _ := raiseRingCell_mono pa _ _ _ _ _
    _ ≤ _ := raiseRingCell_mono pa _ _ _ _ _
    _ ≤ _ := raiseRingCell_mono pa _ _ _ _ _
    _ ≤ _ := raiseRingCell_mono pa _ _ _ _ _

lemma congestionSample_zero (pa : GridParams) (g : Grid) (tx ty : ℚ)
    (y x : Int) (h : g y x = 0) : congestionSample pa g tx ty y x = 0 := by
  unfold congestionSample
  have hcore :
      (if g (toCellY pa ty) (toCellX pa tx) ≠ 0 then
        setCell g (toCellY pa ty) (toCellX pa tx)
          (max (g (toCellY pa ty) (toCellX pa tx)) 6)
      else g) y x = 0 := by
    split
    · rw [setCell_apply]
      split
      · rename_i hz he
        obtain ⟨hy, hx⟩ := he
        subst hy; subst hx
        exact absurd h hz
      · exact h
    · exact h
  exact raiseRingCell_zero pa _ _ _ _ _
    (raiseRingCell_zero pa _ _ _ _ _
      (raiseRingCell_zero pa _ _ _ _ _
        (raiseRingCell_zero pa _ _ _ _ _ hcore)))

/-- Claim C4 (amended): the non-blocking markRect pass and the congestion
pass never lower a previously assigned cost; applying the same halo write
twice leaves the grid unchanged after the first; and the blocked sentinel is
never overwritten by congestion writes.  (The original claim's further
assertion that halo writes also never overwrite the blocked sentinel is
refuted by the counterexample below.) -/
theorem c4_monotone_cost_composition (pa : GridParams) :
    (∀ (g : Grid) (x1 y1 x2 y2 : ℚ) (v : Int) (cy cx : Int),
      g cy cx ≤ markRect pa g x1 y1 x2 y2 v false cy cx) ∧
    (∀ (g : Grid) (x1 y1 x2 y2 : ℚ) (v : Int) (cy cx : Int),
      markRect pa (markRect pa g x1 y1 x2 y2 v false) x1 y1 x2 y2 v false cy cx =
        markRect pa g x1 y1 x2 y2 v false cy cx) ∧
    (∀ (g : Grid) (tx ty : ℚ) (cy cx : Int),
      g cy cx ≤ congestionSample pa g tx ty cy cx) ∧
    (∀ (g : Grid) (tx ty : ℚ) (cy cx : Int),
      g cy cx = 0 → congestionSample pa g tx ty cy cx = 0) :=
  ⟨fun g x1 y1 x2 y2 v cy cx => markRect_mono pa g x1 y1 x2 y2 v cy cx,
   fun g x1 y1 x2 y2 v cy cx => markRect_idem pa g x1 y1 x2 y2 v cy cx,
   fun g tx ty cy cx => congestionSample_mono pa g tx ty cy cx,
   fun g tx ty cy cx h => congestionSample_zero pa g tx ty cy cx h⟩

/-- Witness for the amended C4 at the concrete region pa0: cell (1, 2) is a
blocked cell of the obstacle pass, and a congestion sample aimed straight at
it leaves it blocked. -/
theorem c4_monotone_cost_composition_witness :
    rasterizeNode pa0 baseGrid nodeA 1 2 = 0 ∧
    congestionSample pa0 (rasterizeNode pa0 baseGrid nodeA) 375 225 1 2 = 0 := by
  have h0 : rasterizeNode pa0 baseGrid nodeA 1 2 = 0 := by
    norm_num [rasterizeNode, markRect, toCellX, toCellY, cols, rows, pa0,
      baseGrid, nodeA]
  exact ⟨h0, (c4_monotone_cost_composition pa0).2.2.2
    (rasterizeNode pa0 baseGrid nodeA) 375 225 1 2 h0⟩

/-- Counterexample to C4 as stated: cell (1, 2) lies strictly inside nodeA
and is set to the blocked sentinel by nodeA's interior pass, yet the halo
write of the later nodeB raises it to 55 — a halo write does overwrite the
blocked sentinel. -/
theorem c4_blocked_overwritten_by_halo :
    rasterizeNode pa0 baseGrid nodeA 1 2 = 0 ∧
    rasterizeNode pa0 (rasterizeNode pa0 baseGrid nodeA) nodeB 1 2 = 55 := by
  constructor
  · norm_num [rasterizeNode, markRect, toCellX, toCellY, cols, rows, pa0,
      baseGrid, nodeA]
  · norm_num [rasterizeNode, markRect, toCellX, toCellY, cols, rows, pa0,
      baseGrid, nodeA, nodeB]

lemma setCell_nonzero (g : Grid) (cy cx : Int) (v : Int) (hv : v ≠ 0)
    (y x : Int) (h : g y x ≠ 0) : setCell g cy cx v y x ≠ 0 := by
  rw [setCell_apply]
  split
  · exact hv
  · exact h

lemma forceSetCell_nonzero (pa : GridParams) (g : Grid) (cy cx : Int)
    (v : Int) (hv : v ≠ 0) (y x : Int) (h : g y x ≠ 0) :
    forceSetCell pa g cy cx v y x ≠ 0 := by
  unfold forceSetCell
  split
  · exact h
  · exact setCell_nonzero g cy cx v hv y x h

lemma raiseCellCost_nonzero (pa : GridParams) (g : Grid) (cy cx : Int)
    (v : Int) (hv : 0 < v) (y x : Int) (h : g y x ≠ 0) :
    raiseCellCost pa g cy cx v y x ≠ 0 := by
  unfold raiseCellCost
  split
  · exact h
  · split
    · rw [setCell_apply]
      split
      · have : v ≤ max (g cy cx) v := le_max_right _ _
        omega
      · exact h
    · exact h

lemma carveLoop_nonzero (pa : GridParams) :
    ∀ (k : Nat) (g : Grid) (cx cy dx dy y x : Int), g y x ≠ 0 →
      carveLoop pa k g cx cy dx dy y x ≠ 0 := by
  intro k
  induction k with
  | zero => intro g cx cy dx dy y x h; exact h
  | succ n ih =>
      intro g cx cy dx dy y x h
      exact ih _ _ _ _ _ _ _
        (forceSetCell_nonzero pa g cy cx 3 (by omega) y x h)

lemma carveCorridor_nonzero (pa : GridParams) (g : Grid) (px py : ℚ)
    (n : NodeRect) (scx scy : Int) (y x : Int) (h : g y x ≠ 0) :
    carveCorridor pa g px py n scx scy y x ≠ 0 := by
  unfold carveCorridor
  exact raiseCellCost_nonzero pa _ _ _ _ (by omega) _ _
    (carveLoop_nonzero pa 3 g _ _ _ _ y x h)

lemma raiseRingCell_nonzero (pa : GridParams) (g : Grid) (ny nx : Int)
    (y x : Int) (h : g y x ≠ 0) : raiseRingCell pa g ny nx y x ≠ 0 := by
  unfold raiseRingCell
  split
  · exact h
  · split
    · rw [setCell_apply]
      split
      · have : (14 : Int) ≤ max (g ny nx) 14 := le_max_right _ _
        omega
      · exact h
    · exact h

lemma congestionSample_nonzero (pa : GridParams) (g : Grid) (tx ty : ℚ)
    (y x : Int) (h : g y x ≠ 0) : congestionSample pa g tx ty y x ≠ 0 := by
  unfold congestionSample
  have hcore :
      (if g (toCellY pa ty) (toCellX pa tx) ≠ 0 then
        setCell g (toCellY pa ty) (toCellX pa tx)
          (max (g (toCellY pa ty) (toCellX pa tx)) 6)
      else g) y x ≠ 0 := by
    split
    · rw [setCell_apply]
      split
      · have : (6 : Int) ≤ max (g (toCellY pa ty) (toCellX pa tx)) 6 :=
          le_max_right _ _
        omega
      · exact h
    · exact h
  exact raiseRingCell_nonzero pa _ _ _ _ _
    (raiseRingCell_nonzero pa _ _ _ _ _
      (raiseRingCell_nonzero pa _ _ _ _ _
        (raiseRingCell_nonzero pa _ _ _ _ _ hcore)))

lemma congestionPass_nonzero (pa : GridParams) :
    ∀ (samples : List Pt) (g : Grid) (y x : Int), g y x ≠ 0 →
      congestionPass pa g samples y x ≠ 0 := by
  intro samples
  induction samples with
  | nil => intro g y x h; exact h
  | cons s rest ih =>
      intro g y x h
      exact ih _ _ _ (congestionSample_nonzero pa g s.1 s.2 y x h)

/-- Claim C5: after every grid-construction pass of _computeAStarPathAsync
(initialization, obstacle and halo rasterization, the hard reset of the
endpoint cells, corridor carving, congestion penalties), the start cell and
the end cell of the planning grid are never the blocked sentinel 0 — for
every region, node configuration and congestion sample set. -/
theorem c5_start_end_cells_never_blocked (pa : GridParams)
    (nodes : List NodeRect) (startNode endNode : NodeRect)
    (sx sy ex ey : ℚ) (samples : List Pt) :
    buildGrid pa nodes startNode endNode sx sy ex ey samples
      (toCellY pa sy) (toCellX pa sx) ≠ 0 ∧
    buildGrid pa nodes startNode endNode sx sy ex ey samples
      (toCellY pa ey) (toCellX pa ex) ≠ 0 := by
  unfold buildGrid
  set g0 := nodes.foldl (rasterizeNode pa) baseGrid with hg0
  set g1 := setCell g0 (toCellY pa sy) (toCellX pa sx) 1 with hg1
  set g2 := setCell g1 (toCellY pa ey) (toCellX pa ex) 1 with hg2
  have hs : g2 (toCellY pa sy) (toCellX pa sx) ≠ 0 := by
    rw [hg2, setCell_apply]
    split
    · omega
    · rw [hg1, setCell_apply]
      simp
  have he : g2 (toCellY pa ey) (toCellX pa ex) ≠ 0 := by
    rw [hg2, setCell_apply]
    simp
  constructor
  · exact congestionPass_nonzero pa samples _ _ _
      (carveCorridor_nonzero pa _ ex ey endNode _ _ _ _
        (carveCorridor_nonzero pa _ sx sy startNode _ _ _ _ hs))
  · exact congestionPass_nonzero pa samples _ _ _
      (carveCorridor_nonzero pa _ ex ey endNode _ _ _ _
        (carveCorridor_nonzero pa _ sx sy startNode _ _ _ _ he))

lemma getLatLngs_of_no_path (proj unproj : Pt → Pt) (s : RouteState)
    (a b : Pt) (h : s.pathLatLngs = none ∨ s.pathLatLngs = some []) :
    (getLatLngs proj unproj (some (a, b)) s).output =
      (elbow (proj a) (proj b)).map unproj := by
  unfold getLatLngs
  by_cases hk : s.lastKey = some (sigKey a b)
  · simp only [if_pos hk]
    cases h with
    | inl h1 => simp [serveOrFallback, h1]
    | inr h2 => simp [serveOrFallback, h2]
  · simp [if_neg hk, serveOrFallback]

/-- Claim C2: when the two endpoint positions produce the same signature as
the stored key and a non-empty committed path exists, getLatLngs returns that
committed path unchanged, leaves the route state untouched and does not
invoke the recomputation scheduler; when the signature differs, the committed
path is invalidated, the new key stored and a recomputation scheduled. -/
theorem c2_signature_cache_correct (proj unproj : Pt → Pt) (s : RouteState)
    (a b : Pt) (p : List Pt) :
    (s.lastKey = some (sigKey a b) → s.pathLatLngs = some p → p ≠ [] →
      getLatLngs proj unproj (some (a, b)) s = ⟨p, s, false⟩) ∧
    (s.lastKey ≠ some (sigKey a b) →
      (getLatLngs proj unproj (some (a, b)) s).state.pathLatLngs = none ∧
      (getLatLngs proj unproj (some (a, b)) s).state.lastKey =
        some (sigKey a b) ∧
      (getLatLngs proj unproj (some (a, b)) s).invokedSchedule = true) := by
  constructor
  · intro hk hp hne
    unfold getLatLngs
    simp only [if_pos hk]
    simp [serveOrFallback, hp, hne]
  · intro hk
    unfold getLatLngs
    simp only [if_neg hk]
    simp [serveOrFallback]

/-- Witness for C2: a cached state a matching signature serves from cache
with no scheduling, and a fresh state with no stored key invalidates and
schedules. -/
theorem c2_signature_cache_correct_witness :
    (getLatLngs id id (some ((0, 0), (3, 4))) cachedState =
      ⟨[(1, 2)], cachedState, false⟩) ∧
    ((getLatLngs id id (some ((0, 0), (3, 4))) freshState).state.pathLatLngs =
        none ∧
      (getLatLngs id id (some ((0, 0), (3, 4))) freshState).state.lastKey =
        some (sigKey (0, 0) (3, 4)) ∧
      (getLatLngs id id (some ((0, 0), (3, 4))) freshState).invokedSchedule =
        true) :=
  ⟨(c2_signature_cache_correct id id cachedState (0, 0) (3, 4) [(1, 2)]).1
      rfl rfl (by simp),
   (c2_signature_cache_correct id id freshState (0, 0) (3, 4) [(1, 2)]).2
      (by simp [freshState])⟩

/-- Claim C7: whenever no committed path exists (null or empty) and both pins
exist, getLatLngs returns the three-segment elbow fallback — from the start
point horizontally to the horizontal midpoint of the two projected endpoints,
one vertical jog there, then horizontally into the end point — computed
synchronously from the two projected pin positions alone. -/
theorem c7_fallback_elbow_geometry (proj unproj : Pt → Pt) (s : RouteState)
    (a b : Pt) (h : s.pathLatLngs = none ∨ s.pathLatLngs = some []) :
    (getLatLngs proj unproj (some (a, b)) s).output =
      [proj a,
       ((proj a).1 + ((proj b).1 - (proj a).1) / 2, (proj a).2),
       ((proj a).1 + ((proj b).1 - (proj a).1) / 2, (proj b).2),
       proj b].map unproj := by
  rw [getLatLngs_of_no_path proj unproj s a b h]
  rfl

/-- Witness for C7: a state with no committed path yields the concrete elbow
between pins (0, 0) and (8, 6). -/
theorem c7_fallback_elbow_geometry_witness :
    (getLatLngs id id (some ((0, 0), (8, 6))) ⟨none, none, false⟩).output =
      [((0 : ℚ), (0 : ℚ)),
       ((0 : ℚ) + ((8 : ℚ) - 0) / 2, (0 : ℚ)),
       ((0 : ℚ) + ((8 : ℚ) - 0) / 2, (6 : ℚ)),
       ((8 : ℚ), (6 : ℚ))].map id :=
  c7_fallback_elbow_geometry id id ⟨none, none, false⟩ (0, 0) (8, 6)
    (Or.inl rfl)

/-- Claim C3: when the solver reports failure (a null or empty path), the
findPath callback absorbs it — the link re-renders through getLatLngs and
serves the non-empty fallback elbow instead of rendering nothing. -/
theorem c3_failure_serves_fallback (pa : GridParams)
    (mapProj mapUnproj plannerUnproj : Pt → Pt) (s : RouteState) (a b : Pt)
    (path : Option (List Cell)) (hfail : path = none ∨ path = some []) :
    (pathCallback pa mapProj mapUnproj plannerUnproj (some (a, b)) s path).2 =
      (elbow (mapProj a) (mapProj b)).map mapUnproj ∧
    (pathCallback pa mapProj mapUnproj plannerUnproj (some (a, b)) s path).2 ≠
      [] := by
  have hout : (pathCallback pa mapProj mapUnproj plannerUnproj
      (some (a, b)) s path).2 = (elbow (mapProj a) (mapProj b)).map mapUnproj := by
    cases hfail with
    | inl h1 =>
        subst h1
        unfold pathCallback
        exact getLatLngs_of_no_path mapProj mapUnproj _ a b (Or.inl rfl)
    | inr h2 =>
        subst h2
        unfold pathCallback
        exact getLatLngs_of_no_path mapProj mapUnproj _ a b (Or.inl rfl)
  refine ⟨hout, ?_⟩
  rw [hout]
  simp [elbow]

/-- Witness for C3: the failure callback on a link whose previous state held
a committed path serves the concrete elbow, which is non-empty. -/
theorem c3_failure_serves_fallback_witness :
    (pathCallback pa0 id id id (some ((0, 0), (8, 6))) cachedState none).2 =
      (elbow ((0 : ℚ), (0 : ℚ)) ((8 : ℚ), (6 : ℚ))).map id ∧
    (pathCallback pa0 id id id (some ((0, 0), (8, 6))) cachedState none).2 ≠
      [] :=
  c3_failure_serves_fallback pa0 id id id cachedState (0, 0) (8, 6) none
    (Or.inl rfl)

/-- Claim C1 (refuted by the code as it stands): on the concrete region pa0,
the pins (10, 20) and (235, 80) map to the raw-path endpoint cells (0, 0) and
(1, 0), yet the polyline the findPath callback commits for that raw path
starts at the cell center (75, 75) and ends at the cell center (225, 75) —
not at the pin coordinates.  The _stitchEndpoints call that would restore
endpoint exactness is commented out in the source even though the adjacent
comment still promises to stitch exact pin endpoints. -/
theorem c1_committed_path_misses_pins :
    toCellX pa0 10 = 0 ∧ toCellY pa0 20 = 0 ∧
    toCellX pa0 235 = 1 ∧ toCellY pa0 80 = 0 ∧
    committedPlanningPath pa0 [(0, 0), (1, 0)] = [(75, 75), (225, 75)] ∧
    ((75 : ℚ), (75 : ℚ)) ≠ ((10 : ℚ), (20 : ℚ)) ∧
    ((225 : ℚ), (75 : ℚ)) ≠ ((235 : ℚ), (80 : ℚ)) := by
  refine ⟨?_, ?_, ?_, ?_, ?_, by norm_num, by norm_num⟩
  · norm_num [toCellX, cols, pa0]
  · norm_num [toCellY, rows, pa0]
  · norm_num [toCellX, cols, pa0]
  · norm_num [toCellY, rows, pa0]
  · norm_num [committedPlanningPath, toPoint, simplifyOrthogonal,
      pruneShortSegments, pa0]

/-- Counterexample to C6 as stated: the source filter
getLinks().filter(l => l !== this && l.polyline) keeps a link whose endpoints
are mid-drag, which the claim says is excluded (the claimed filter drops it). -/
theorem c6_middrag_route_not_excluded :
    congestionOtherLinks 0 [dragLink] = [dragLink] ∧
    dragLink.midDrag = true ∧
    claimedCongestionLinks 0 [dragLink] = [] := by
  refine ⟨?_, rfl, ?_⟩ <;> rfl

lemma raiseRingCell_other (pa : GridParams) (g : Grid) (ny nx y x : Int)
    (h : ¬(y = ny ∧ x = nx)) : raiseRingCell pa g ny nx y x = g y x := by
  unfold raiseRingCell
  split
  · rfl
  · split
    · rw [setCell_apply, if_neg h]
    · rfl

lemma raiseRingCell_self (pa : GridParams) (g : Grid) (ny nx : Int)
    (h0 : 0 ≤ ny) (h1 : ny < rows pa) (h2 : 0 ≤ nx) (h3 : nx < cols pa)
    (hnz : g ny nx ≠ 0) :
    raiseRingCell pa g ny nx ny nx = max (g ny nx) 14 := by
  unfold raiseRingCell
  rw [if_neg (by omega), if_pos hnz, setCell_apply, if_pos ⟨rfl, rfl⟩]

lemma congestionCore_other (g : Grid) (cy cx y x : Int)
    (h : ¬(y = cy ∧ x = cx)) :
    (if g cy cx ≠ 0 then setCell g cy cx (max (g cy cx) 6) else g) y x =
      g y x := by
  split
  · rw [setCell_apply, if_neg h]
  · rfl

lemma congestionSample_core (pa : GridParams) (g : Grid) (tx ty : ℚ)
    (hnz : g (toCellY pa ty) (toCellX pa tx) ≠ 0) :
    congestionSample pa g tx ty (toCellY pa ty) (toCellX pa tx) =
      max (g (toCellY pa ty) (toCellX pa tx)) 6 := by
  unfold congestionSample
  rw [raiseRingCell_other pa _ (toCellY pa ty) (toCellX pa tx + 1)
        (toCellY pa ty) (toCellX pa tx) (by omega),
      raiseRingCell_other pa _ (toCellY pa ty) (toCellX pa tx - 1)
        (toCellY pa ty) (toCellX pa tx) (by omega),
      raiseRingCell_other pa _ (toCellY pa ty + 1) (toCellX pa tx)
        (toCellY pa ty) (toCellX pa tx) (by omega),
      raiseRingCell_other pa _ (toCellY pa ty - 1) (toCellX pa tx)
        (toCellY pa ty) (toCellX pa tx) (by omega),
      if_pos hnz, setCell_apply, if_pos ⟨rfl, rfl⟩]

/-- Claim C6 (amended): the congestion pass iterates over every other link
that has a polyline — with no exclusion for mid-drag endpoints and no
committed-path requirement — and for each sampled cell raises the non-blocked
core cell's cost to at least 6 and each in-bounds non-blocked 4-neighbour
cell's cost to at least the larger ring penalty 14, never modifying blocked
cells. -/
theorem c6_congestion_pass_behavior (selfId : Nat) (links : List LinkRec)
    (l : LinkRec) (pa : GridParams) (g : Grid) (tx ty : ℚ) :
    (l ∈ congestionOtherLinks selfId links ↔
      l ∈ links ∧ l.lid ≠ selfId ∧ l.hasPolyline = true) ∧
    (g (toCellY pa ty) (toCellX pa tx) ≠ 0 →
      6 ≤ congestionSample pa g tx ty (toCellY pa ty) (toCellX pa tx)) ∧
    (∀ n ∈ ([(toCellY pa ty - 1, toCellX pa tx),
             (toCellY pa ty + 1, toCellX pa tx),
             (toCellY pa ty, toCellX pa tx - 1),
             (toCellY pa ty, toCellX pa tx + 1)] : List (Int × Int)),
      0 ≤ n.1 → n.1 < rows pa → 0 ≤ n.2 → n.2 < cols pa → g n.1 n.2 ≠ 0 →
        14 ≤ congestionSample pa g tx ty n.1 n.2) ∧
    (∀ y x : Int, g y x = 0 → congestionSample pa g tx ty y x = 0) := by
  refine ⟨?_, ?_, ?_, fun y x h => congestionSample_zero pa g tx ty y x h⟩
  · simp [congestionOtherLinks, List.mem_filter, and_assoc]
  · intro hnz
    rw [congestionSample_core pa g tx ty hnz]
    exact le_max_right _ _
  · intro n hn h0 h1 h2 h3 hnz
    simp only [List.mem_cons, List.not_mem_nil, or_false] at hn
    have hcore : ∀ y x : Int, ¬(y = toCellY pa ty ∧ x = toCellX pa tx) →
        (if g (toCellY pa ty) (toCellX pa tx) ≠ 0 then
          setCell g (toCellY pa ty) (toCellX pa tx)
            (max (g (toCellY pa ty) (toCellX pa tx)) 6)
        else g) y x = g y x :=
      fun y x h => congestionCore_other g (toCellY pa ty) (toCellX pa tx) y x h
    rcases hn with h | h | h | h
    · subst h
      unfold congestionSample
      rw [raiseRingCell_other pa _ (toCellY pa ty) (toCellX pa tx + 1)
            (toCellY pa ty - 1) (toCellX pa tx) (by omega),
          raiseRingCell_other pa _ (toCellY pa ty) (toCellX pa tx - 1)
            (toCellY pa ty - 1) (toCellX pa tx) (by omega),
          raiseRingCell_other pa _ (toCellY pa ty + 1) (toCellX pa tx)
            (toCellY pa ty - 1) (toCellX pa tx) (by omega),
          raiseRingCell_self pa _ (toCellY pa ty - 1) (toCellX pa tx)
            h0 h1 h2 h3 (by rw [hcore _ _ (by omega)]; exact hnz),
          hcore _ _ (by omega)]
      exact le_max_right _ _
    · subst h
      unfold congestionSample
      rw [raiseRingCell_other pa _ (toCellY pa ty) (toCellX pa tx + 1)
            (toCellY pa ty + 1) (toCellX pa tx) (by omega),
          raiseRingCell_other pa _ (toCellY pa ty) (toCellX pa tx - 1)
            (toCellY pa ty + 1) (toCellX pa tx) (by omega),
          raiseRingCell_self pa _ (toCellY pa ty + 1) (toCellX pa tx)
            h0 h1 h2 h3 (by rw [raiseRingCell_other pa _ _ _ _ _ (by omega),
              hcore _ _ (by omega)]; exact hnz),
          raiseRingCell_other pa _ (toCellY pa ty - 1) (toCellX pa tx)
            (toCellY pa ty + 1) (toCellX pa tx) (by omega),
          hcore _ _ (by omega)]
      exact le_max_right _ _
    · subst h
      unfold congestionSample
      rw [raiseRingCell_other pa _ (toCellY pa ty) (toCellX pa tx + 1)
            (toCellY pa ty) (toCellX pa tx - 1) (by omega),
          raiseRingCell_self pa _ (toCellY pa ty) (toCellX pa tx - 1)
            h0 h1 h2 h3 (by rw [raiseRingCell_other pa _ _ _ _ _ (by omega),
              raiseRingCell_other pa _ _ _ _ _ (by omega),
              hcore _ _ (by omega)]; exact hnz),
          raiseRingCell_other pa _ (toCellY pa ty + 1) (toCellX pa tx)
            (toCellY pa ty) (toCellX pa tx - 1) (by omega),
          raiseRingCell_other pa _ (toCellY pa ty - 1) (toCellX pa tx)
            (toCellY pa ty) (toCellX pa tx - 1) (by omega),
          hcore _ _ (by omega)]
      exact le_max_right _ _
    · subst h
      unfold congestionSample
      rw [raiseRingCell_self pa _ (toCellY pa ty) (toCellX pa tx + 1)
            h0 h1 h2 h3 (by rw [raiseRingCell_other pa _ _ _ _ _ (by omega),
              raiseRingCell_other pa _ _ _ _ _ (by omega),
              raiseRingCell_other pa _ _ _ _ _ (by omega),
              hcore _ _ (by omega)]; exact hnz),
          raiseRingCell_other pa _ (toCellY pa ty) (toCellX pa tx - 1)
            (toCellY pa ty) (toCellX pa tx + 1) (by omega),
          raiseRingCell_other pa _ (toCellY pa ty + 1) (toCellX pa tx)
            (toCellY pa ty) (toCellX pa tx + 1) (by omega),
          raiseRingCell_other pa _ (toCellY pa ty - 1) (toCellX pa tx)
            (toCellY pa ty) (toCellX pa tx + 1) (by omega),
          hcore _ _ (by omega)]
      exact le_max_right _ _

/-- Witness for the amended C6: a mid-drag link with a polyline is iterated
over, and a congestion sample at planning point (375, 225) of the concrete
region raises its core cell from 1 to at least 6 while leaving the blocked
origin-adjacent obstacle cell of nodeA at 0. -/
theorem c6_congestion_pass_behavior_witness :
    (dragLink ∈ congestionOtherLinks 0 [dragLink] ↔
      dragLink ∈ [dragLink] ∧ dragLink.lid ≠ 0 ∧ dragLink.hasPolyline = true) ∧
    (6 : Int) ≤ congestionSample pa0 baseGrid 375 225
      (toCellY pa0 225) (toCellX pa0 375) ∧
    congestionSample pa0 (rasterizeNode pa0 baseGrid nodeA) 375 525 1 1 = 0 := by
  obtain ⟨hmem, hcore, _, hzero⟩ :=
    c6_congestion_pass_behavior 0 [dragLink] dragLink pa0 baseGrid 375 225
  refine ⟨hmem, hcore (by norm_num [baseGrid]), ?_⟩
  exact (c6_congestion_pass_behavior 0 [] dragLink pa0
      (rasterizeNode pa0 baseGrid nodeA) 375 525).2.2.2 1 1
    (by norm_num [rasterizeNode, markRect, toCellX, toCellY, cols, rows, pa0,
      baseGrid, nodeA])

lemma qsign_lt (x : ℚ) (h : x < 0) : qsign x = -1 := by
  unfold qsign; rw [if_pos h]

lemma qsign_zero (x : ℚ) (h : x = 0) : qsign x = 0 := by
  unfold qsign; rw [if_neg (by simp [h]), if_pos h]

lemma qsign_gt (x : ℚ) (h : 0 < x) : qsign x = 1 := by
  unfold qsign; rw [if_neg (by linarith), if_neg (by linarith)]

lemma qsign_add (x y : ℚ) (h : qsign x = qsign y) : qsign (x + y) = qsign x := by
  rcases lt_trichotomy x 0 with hx | hx | hx
  · have hy : y < 0 := by
      rcases lt_trichotomy y 0 with h1 | h1 | h1
      · exact h1
      · rw [qsign_lt x hx, qsign_zero y h1] at h; norm_num at h
      · rw [qsign_lt x hx, qsign_gt y h1] at h; norm_num at h
    rw [qsign_lt _ (by linarith), qsign_lt _ hx]
  · have hy : y = 0 := by
      rcases lt_trichotomy y 0 with h1 | h1 | h1
      · rw [qsign_zero x hx, qsign_lt y h1] at h; norm_num at h
      · exact h1
      · rw [qsign_zero x hx, qsign_gt y h1] at h; norm_num at h
    rw [qsign_zero _ (by rw [hx, hy]; norm_num), qsign_zero _ hx]
  · have hy : 0 < y := by
      rcases lt_trichotomy y 0 with h1 | h1 | h1
      · rw [qsign_gt x hx, qsign_lt y h1] at h; norm_num at h
      · rw [qsign_gt x hx, qsign_zero y h1] at h; norm_num at h
      · exact h1
    rw [qsign_gt _ (by linarith), qsign_gt _ hx]

lemma dsign_trans (a b c : Pt) (d : Int × Int) (h1 : dsign a b = d)
    (h2 : dsign b c = d) : dsign a c = d := by
  rw [Prod.ext_iff] at h1 h2 ⊢
  obtain ⟨h1x, h1y⟩ := h1
  obtain ⟨h2x, h2y⟩ := h2
  unfold dsign at *
  simp only at h1x h1y h2x h2y ⊢
  constructor
  · have hsum : c.1 - a.1 = (b.1 - a.1) + (c.1 - b.1) := by ring
    rw [hsum, qsign_add _ _ (by rw [h1x, h2x])]
    exact h1x
  · have hsum : c.2 - a.2 = (b.2 - a.2) + (c.2 - b.2) := by ring
    rw [hsum, qsign_add _ _ (by rw [h1y, h2y])]
    exact h1y

lemma simplifyGo_cons (ps : List Pt) : ∀ (p : Pt) (d : Int × Int),
    ∃ h t, simplifyGo p (some d) ps = h :: t ∧ (h = p ∨ dsign p h = d) := by
  induction ps with
  | nil => intro p d; exact ⟨p, [], rfl, Or.inl rfl⟩
  | cons q rest ih =>
      intro p d
      by_cases hd : some (dsign p q) = some d
      · have hdq : dsign p q = d := Option.some.inj hd
        obtain ⟨h, t, heq, hop⟩ := ih q d
        refine ⟨h, t, ?_, ?_⟩
        · show simplifyGo p (some d) (q :: rest) = h :: t
          simp only [simplifyGo]
          rw [if_pos hd]
          exact heq
        · rcases hop with h1 | h1
          · exact Or.inr (h1 ▸ hdq)
          · exact Or.inr (dsign_trans p q h d hdq h1)
      · refine ⟨p, simplifyGo q (some (dsign p q)) rest, ?_, Or.inl rfl⟩
        simp only [simplifyGo]
        rw [if_neg hd]

lemma simpOk_go : ∀ (ps : List Pt) (last : Pt) (prevD : Option (Int × Int)),
    simpOk prevD (simplifyGo last prevD ps) := by
  intro ps
  induction ps with
  | nil => intro last prevD; trivial
  | cons p rest ih =>
      intro last prevD
      by_cases hd : some (dsign last p) = prevD
      · simp only [simplifyGo]
        rw [if_pos hd]
        exact ih p prevD
      · simp only [simplifyGo]
        rw [if_neg hd]
        obtain ⟨h, t, heq, hop⟩ := simplifyGo_cons rest p (dsign last p)
        rw [heq]
        have hdh : dsign last h = dsign last p := by
          rcases hop with h1 | h1
          · rw [h1]
          · exact dsign_trans last p h (dsign last p) rfl h1
        have hok : simpOk (some (dsign last p)) (h :: t) := by
          have := ih p (some (dsign last p))
          rw [heq] at this
          exact this
        show some (dsign last h) ≠ prevD ∧ simpOk (some (dsign last h)) (h :: t)
        rw [hdh]
        exact ⟨hd, hok⟩

lemma simplifyGo_id : ∀ (ps : List Pt) (last : Pt) (prevD : Option (Int × Int)),
    simpOk prevD (last :: ps) → simplifyGo last prevD ps = last :: ps := by
  intro ps
  induction ps with
  | nil => intro last prevD _; rfl
  | cons p rest ih =>
      intro last prevD h
      obtain ⟨h1, h2⟩ := h
      simp only [simplifyGo]
      rw [if_neg h1, ih p (some (dsign last p)) h2]

/-- Claim C8: the orthogonal simplifier is idempotent — its output is a fixed
point of the function for every input point list. -/
theorem c8_simplify_idempotent (pts : List Pt) :
    simplifyOrthogonal (simplifyOrthogonal pts) = simplifyOrthogonal pts := by
  by_cases hlen : pts.length ≤ 2
  · unfold simplifyOrthogonal
    rw [if_pos hlen, if_pos hlen]
  · cases pts with
    | nil => simp at hlen
    | cons p rest =>
        have hout : simplifyOrthogonal (p :: rest) = simplifyGo p none rest := by
          unfold simplifyOrthogonal
          rw [if_neg hlen]
        rw [hout]
        have hok : simpOk none (simplifyGo p none rest) := simpOk_go rest p none
        by_cases hlen2 : (simplifyGo p none rest).length ≤ 2
        · unfold simplifyOrthogonal
          rw [if_pos hlen2]
        · cases hgo : simplifyGo p none rest with
          | nil => rw [hgo] at hlen2; simp at hlen2
          | cons q qrest =>
              unfold simplifyOrthogonal
              rw [hgo] at hlen2
              rw [if_neg hlen2]
              rw [hgo] at hok
              exact simplifyGo_id qrest q none hok

lemma solveStep_absorb (p : SolverParams) (s : SolveState)
    (h : s.result.isSome) : solveStep p s = s := by
  unfold solveStep
  rw [if_pos h]

lemma solveStep_iterate_absorb (p : SolverParams) :
    ∀ (m : Nat) (s : SolveState), s.result.isSome →
      (solveStep p)^[m] s = s := by
  intro m
  induction m with
  | zero => intro s _; rfl
  | succ n ih =>
      intro s h
      rw [Function.iterate_succ_apply, solveStep_absorb p s h, ih s h]

lemma solveRun_is_iterate (p : SolverParams) (k : Nat) :
    ∀ (b : Nat) (s : SolveState),
      ∃ m, solveRun p k b s = (solveStep p)^[m] s := by
  intro b
  induction b with
  | zero => intro s; exact ⟨0, rfl⟩
  | succ n ih =>
      intro s
      by_cases h : s.result.isSome
      · refine ⟨0, ?_⟩
        unfold solveRun
        rw [if_pos h]
        rfl
      · obtain ⟨m, hm⟩ := ih (calculate p k s)
        refine ⟨m + k, ?_⟩
        unfold solveRun
        rw [if_neg h, hm, Function.iterate_add_apply]
        rfl

/-- Claim C9: for a fixed grid and fixed start and goal cells, any two
incremental executions of the solve — whatever their batch sizes and batch
counts — that both deliver a result deliver the identical result: the same
cell sequence and hence the same path cost. -/
theorem c9_solver_deterministic (p : SolverParams) (k₁ k₂ b₁ b₂ : Nat)
    (r₁ r₂ : Option (List SCell))
    (h₁ : (solveRun p k₁ b₁ (initState p)).result = some r₁)
    (h₂ : (solveRun p k₂ b₂ (initState p)).result = some r₂) :
    r₁ = r₂ ∧ r₁.map (pathCost p) = r₂.map (pathCost p) := by
  obtain ⟨m₁, hm₁⟩ := solveRun_is_iterate p k₁ b₁ (initState p)
  obtain ⟨m₂, hm₂⟩ := solveRun_is_iterate p k₂ b₂ (initState p)
  rw [hm₁] at h₁
  rw [hm₂] at h₂
  have key : ∀ (ma mb : Nat) (ra rb : Option (List SCell)), ma ≤ mb →
      ((solveStep p)^[ma] (initState p)).result = some ra →
      ((solveStep p)^[mb] (initState p)).result = some rb → ra = rb := by
    intro ma mb ra rb hle ha hb
    have habs : (solveStep p)^[mb] (initState p) =
        (solveStep p)^[ma] (initState p) := by
      have hsplit : mb = (mb - ma) + ma := by omega
      rw [hsplit, Function.iterate_add_apply]
      exact solveStep_iterate_absorb p (mb - ma) _ (by rw [ha]; rfl)
    rw [habs, ha] at hb
    exact Option.some.inj hb
  have hr : r₁ = r₂ := by
    rcases le_total m₁ m₂ with hle | hle
    · exact key m₁ m₂ r₁ r₂ hle h₁ h₂
    · exact (key m₂ m₁ r₂ r₁ hle h₂ h₁).symm
  exact ⟨hr, by rw [hr]⟩

/-- Witness for C9: on the concrete 2 by 2 all-walkable solver instance, a
run of 12 batches of 1 iteration and a run of 4 batches of 5 iterations both
deliver the path (0,0) → (1,0) → (1,1). -/
theorem c9_solver_deterministic_witness :
    (some [((0 : Nat), (0 : Nat)), (1, 0), (1, 1)] : Option (List SCell)) =
      some [(0, 0), (1, 0), (1, 1)] ∧
    (some [((0 : Nat), (0 : Nat)), (1, 0), (1, 1)] :
        Option (List SCell)).map (pathCost solver0) =
      (some [(0, 0), (1, 0), (1, 1)] : Option (List SCell)).map
        (pathCost solver0) :=
  c9_solver_deterministic solver0 1 5 12 4
    (some [(0, 0), (1, 0), (1, 1)]) (some [(0, 0), (1, 0), (1, 1)])
    (by decide) (by decide)

end LinkRouter
